import Mathlib

/-!
# Verification of the mesh2Tile adaptive tiling / texture budget pipeline

Shallow embedding of the core algorithms of the mesh2Tile repository:

* `src/BlenderScripts/adaptiveTiling.py` (and its per-chunk copy
  `src/BlenderScripts/adaptiveTilingWorker.py`, which takes `TRIANGLE_THRESHOLD`
  as a command-line parameter): the octree spatial partitioner
  `bisect_object_octree` and the recursive scheduler `process_object_adaptive`;
* `src/BlenderScripts/bakeSingleTile.py`: the adaptive texture sizing
  (`clamp_to_power_of_2`, `calculate_budget_exhausted_level`,
  `get_adaptive_texture_size`, `load_texture_metadata`);
* `src/pipeline/createTilesetJson.py`: the tileset hierarchy builder
  (`parse_tile_id`, `group_tiles_by_level`, `get_geometric_error`,
  `build_hierarchy`, `restructure_tileset`).

Modelling conventions:

* Python floats are modelled by exact rationals (`ℚ`); the numeric literal
  `2.828` becomes `2828/1000`, `0.1` becomes `1/10`, and so on.  None of the
  verified decision points sits close enough to a floating-point rounding
  boundary for the distinction to change a result.
* Blender mesh objects are modelled by an explicit `Mesh` structure holding
  vertex positions, faces as ordered lists of vertex indices, per-face
  material indices, material slots and an optional per-corner UV layer.
* The external Blender decimate modifier is an opaque parameter
  `dec : Mesh → ℚ → Mesh` (mesh and collapse ratio in, mesh out); the code
  under verification only computes the ratio and decides when to call it.
* Filesystem access in `load_texture_metadata` is abstracted as a lookup
  function `String → Option TextureMetadata` (`none` = file absent or
  unparseable, exactly the cases the Python `except` swallows).
-/

namespace Mesh2Tile

/-! ## Texture sizing (`src/BlenderScripts/bakeSingleTile.py`) -/

/-- Model of `clamp_to_power_of_2(value, min_size, max_size)` from `bakeSingleTile.py`
(lines 77–96): clamp `value` into `[min_size, max_size]`, take the power of two
below it (`int(math.log2(value))`), choose the nearer of the two neighbouring
powers of two with a strict `<` comparison (an exact tie therefore picks the
upper one), and clamp again. -/
def clamp_to_power_of_2 (value : ℚ) (min_size max_size : ℕ) : ℕ :=
  let v : ℚ := max (min_size : ℚ) (min (max_size : ℚ) value)
  let power : ℕ := Nat.log2 ⌊v⌋₊
  let lower : ℕ := 2 ^ power
  let upper : ℕ := 2 ^ (power + 1)
  let result : ℕ := if v - (lower : ℚ) < (upper : ℚ) - v then lower else upper
  max min_size (min max_size result)

/-- The loop body of `calculate_budget_exhausted_level` (lines 98–116 of
`bakeSingleTile.py`).  `fuel` is `10 - level`: the `while` condition is
`cumulative_pixels < source_texture_pixels and level < 10`. -/
def budget_level_loop (source_texture_pixels base_resolution : ℕ) :
    ℕ → ℕ → ℕ → ℕ
  | 0, level, _ => level
  | fuel + 1, level, cumulative_pixels =>
    if cumulative_pixels < source_texture_pixels then
      let tiles_at_level := if 0 < level then 8 ^ level else 1
      let pixels_per_tile := base_resolution ^ 2
      let c := cumulative_pixels + tiles_at_level * pixels_per_tile
      if source_texture_pixels ≤ c then level
      else budget_level_loop source_texture_pixels base_resolution fuel (level + 1) c
    else level

/-- Model of `calculate_budget_exhausted_level(source_texture_pixels, base_resolution)`:
the level at which the cumulative texture pixel budget reaches the source
texture's pixel count, with the search capped at level 10. -/
def calculate_budget_exhausted_level (source_texture_pixels base_resolution : ℕ) : ℕ :=
  budget_level_loop source_texture_pixels base_resolution 10 0 0

/-- The cumulative pixel budget through level `L` (inclusive): one tile at
level 0 and `8^d` tiles at each level `d > 0`, each holding
`base_resolution ^ 2` pixels.  This is the running sum maintained by
`calculate_budget_exhausted_level`. -/
def cumulative_pixels (base_resolution : ℕ) (L : ℕ) : ℕ :=
  (Finset.range (L + 1)).sum fun d => (if 0 < d then 8 ^ d else 1) * base_resolution ^ 2

/-- The level-indexed core of `get_adaptive_texture_size` (lines 118–162 of
`bakeSingleTile.py`), after the tile level has been parsed from the tile name:
level 0 is pinned to 1024; levels at or below the budget level keep
`base_resolution`; past the budget the resolution shrinks by `2.828` per level
and is snapped to a power of two in `[32, 1024]`. -/
def get_adaptive_texture_size_level (tile_level source_texture_pixels base_resolution : ℕ) : ℕ :=
  if tile_level = 0 then 1024
  else
    let budget_level := calculate_budget_exhausted_level source_texture_pixels base_resolution
    if tile_level ≤ budget_level then base_resolution
    else
      let levels_past_budget := tile_level - budget_level
      let reduction_factor : ℚ := (2828 / 1000 : ℚ) ^ levels_past_budget
      let reduced_resolution : ℚ := (base_resolution : ℚ) / reduction_factor
      clamp_to_power_of_2 reduced_resolution 32 1024

/-- Python's `str.split(sep)` for a one-character separator, on the character
list (`"".split('_') == ['']`, and empty parts are kept). -/
def split_char (sep : Char) : List Char → List (List Char)
  | [] => [[]]
  | c :: rest =>
    let r := split_char sep rest
    if c = sep then [] :: r
    else (c :: r.headD []) :: r.tail

/-- Python's `int(s)` on a plain digit string: the value, or `none` for the
`ValueError` on an empty or non-numeric string. -/
def int_of_digits (cs : List Char) : Option ℕ :=
  if ¬cs.isEmpty ∧ cs.all Char.isDigit then
    some (cs.foldl (fun acc c => 10 * acc + (c.toNat - 48)) 0)
  else none

/-- Model of `int(tile_name.split('_')[0])`: the leading integer of a tile name.
`none` models the `ValueError` python's `int` raises on a non-numeric part. -/
def parse_leading_tile_level (tile_name : String) : Option ℕ :=
  int_of_digits ((split_char '_' tile_name.toList).headD [])

/-- Model of `get_adaptive_texture_size(tile_name, source_texture_pixels,
total_estimated_tiles, base_resolution)`.  `total_estimated_tiles` is accepted
and unused, exactly as in the source.  `none` models the uncaught `ValueError`
on an unparseable tile name. -/
def get_adaptive_texture_size (tile_name : String)
    (source_texture_pixels total_estimated_tiles base_resolution : ℕ) : Option ℕ :=
  let _ := total_estimated_tiles
  (parse_leading_tile_level tile_name).map fun tile_level =>
    get_adaptive_texture_size_level tile_level source_texture_pixels base_resolution

/-- The texture metadata sidecar (`texture_metadata.json`), as written by
`generate_texture_metadata` in `adaptiveTiling.py` (lines 129–138). -/
structure TextureMetadata where
  source_texture_width : ℕ
  source_texture_height : ℕ
  source_texture_pixels : ℕ
  total_triangles : ℕ
  triangle_threshold : ℕ
  estimated_tiles : ℕ
  estimated_max_depth : ℕ
  base_texture_size : ℕ
deriving DecidableEq

/-- Model of `os.path.dirname` for POSIX paths: everything before the last `/`
(`"/"` when the result would be empty but the path was absolute). -/
def dirname (p : String) : String :=
  let comps := p.splitOn "/"
  if comps.length ≤ 1 then ""
  else
    let d := String.intercalate "/" comps.dropLast
    if d = "" then "/" else d

/-- Model of `os.path.join(d, f)` for a relative `f`. -/
def joinPath (d f : String) : String :=
  if d = "" then f else if d.endsWith "/" then d ++ f else d ++ "/" ++ f

/-- The four locations searched by `load_texture_metadata` (lines 174–179 of
`bakeSingleTile.py`): the output directory and its three parents. -/
def metadata_search_paths (output_dir : String) : List String :=
  [joinPath output_dir "texture_metadata.json",
   joinPath (dirname output_dir) "texture_metadata.json",
   joinPath (dirname (dirname output_dir)) "texture_metadata.json",
   joinPath (dirname (dirname (dirname output_dir))) "texture_metadata.json"]

/-- The search loop of `load_texture_metadata`: return the first path whose
lookup succeeds.  `fs p = none` covers both "file absent" and "file failed to
load/parse" (the `except` branch), which the loop treats identically. -/
def first_found (fs : String → Option TextureMetadata) : List String → Option TextureMetadata
  | [] => none
  | p :: ps =>
    match fs p with
    | some m => some m
    | none => first_found fs ps

/-- Model of `load_texture_metadata(output_dir)` over an abstract filesystem `fs`. -/
def load_texture_metadata (fs : String → Option TextureMetadata) (output_dir : String) :
    Option TextureMetadata :=
  first_found fs (metadata_search_paths output_dir)

/-- The texture-size selection step of `bake_single_tile` (lines 363–378 of
`bakeSingleTile.py`): use the metadata when it was found, otherwise fall back
to `1024`. -/
def bake_tile_texture_size (fs : String → Option TextureMetadata)
    (output_dir tile_name : String) : Option ℕ :=
  match load_texture_metadata fs output_dir with
  | some metadata =>
      get_adaptive_texture_size tile_name metadata.source_texture_pixels
        metadata.estimated_tiles metadata.base_texture_size
  | none => some 1024

/-! ## Tileset hierarchy builder (`src/pipeline/createTilesetJson.py`) -/

/-- A tile of the flat input tileset: the fields of the child dictionaries that
`restructure_tileset` reads (`content.uri` and `boundingVolume.box`, the box
being the twelve numbers of a 3D-Tiles oriented bounding box). -/
structure FlatTile where
  uri : String
  box : List ℚ
deriving DecidableEq

/-- Greedy digit run at the head of a character list, with the rest. -/
def take_digit_run (cs : List Char) : Option (ℕ × List Char) :=
  let ds := cs.takeWhile Char.isDigit
  if ds.isEmpty then none
  else some (ds.foldl (fun acc c => 10 * acc + (c.toNat - 48)) 0, cs.dropWhile Char.isDigit)

/-- One `[-_]` separator. -/
def take_dash_or_underscore : List Char → Option (List Char)
  | c :: rest => if c = '-' ∨ c = '_' then some rest else none
  | [] => none

/-- Model of `parse_tile_id(uri)`: the regex `(\d+)[-_](\d+)[-_](\d+)[-_](\d+)\.glb`
matched at the start of the string (`re.match`; text may follow `.glb`).
Because a digit can never match `[-_]` or `\.`, the greedy digit runs are
exactly maximal runs and the match is deterministic. -/
def parse_tile_id (uri : String) : Option (ℕ × ℕ × ℕ × ℕ) := do
  let (l, r1) ← take_digit_run uri.toList
  let r1 ← take_dash_or_underscore r1
  let (x, r2) ← take_digit_run r1
  let r2 ← take_dash_or_underscore r2
  let (y, r3) ← take_digit_run r2
  let r3 ← take_dash_or_underscore r3
  let (z, r4) ← take_digit_run r3
  match r4 with
  | '.' :: 'g' :: 'l' :: 'b' :: _ => some (l, x, y, z)
  | _ => none

/-- Insertion-ordered dictionary update, as a Python `dict`: an existing key
keeps its position and gets the new value, a new key is appended. -/
def dict_insert {α β : Type} [DecidableEq α] (k : α) (v : β) :
    List (α × β) → List (α × β)
  | [] => [(k, v)]
  | (k', v') :: rest => if k' = k then (k', v) :: rest else (k', v') :: dict_insert k v rest

/-- Update the value at key `k` of a `defaultdict`, treating a missing key as
holding `default`. -/
def defaultdict_update {α β : Type} [DecidableEq α] (default : β) (k : α) (f : β → β) :
    List (α × β) → List (α × β)
  | [] => [(k, f default)]
  | (k', v') :: rest =>
    if k' = k then (k', f v') :: rest else (k', v') :: defaultdict_update default k f rest

/-- The per-level dictionaries of `group_tiles_by_level`: insertion-ordered
maps from `(x, y, z)` to the flat tile (whose `info` is recoverable as the key
prefixed with the level). -/
abbrev LevelDict := List ((ℕ × ℕ × ℕ) × FlatTile)

/-- Model of `group_tiles_by_level(children)`: for each child whose `content.uri`
parses, store it in `levels[level][(x, y, z)]`; unparseable uris are skipped. -/
def group_tiles_by_level (children : List FlatTile) : List (ℕ × LevelDict) :=
  children.foldl
    (fun levels tile =>
      match parse_tile_id tile.uri with
      | some (l, x, y, z) => defaultdict_update [] l (dict_insert (x, y, z) tile) levels
      | none => levels)
    []

/-- Model of `tiles_by_level.get(level, {})`. -/
def levels_get (levels : List (ℕ × LevelDict)) (l : ℕ) : LevelDict :=
  (levels.lookup l).getD []

/-- Model of `get_geometric_error(level)` (lines 30–40 of `createTilesetJson.py`):
`None` at level 0 (the root error is computed separately), then the hardcoded
schedule `0.1`, `0.05`, `0.005`, and `0.005 / 2^(level-3)` below that. -/
def get_geometric_error (level : ℕ) : Option ℚ :=
  if level = 0 then none
  else if level = 1 then some (1 / 10)
  else if level = 2 then some (5 / 100)
  else if level = 3 then some (5 / 1000)
  else some ((5 / 1000) / 2 ^ (level - 3))

/-- A geometric-error value of the output tileset.  The structural root's
error is `2 * sqrt(hx^2 + hy^2 + hz^2)` of the box half-axes
(`calculate_bounding_box_diagonal`); the square root is irrational, so the
computed diagonal is represented symbolically by the box it is taken of, and
every other error is an exact rational of the hardcoded schedule. -/
inductive GeomVal where
  | q (v : ℚ)
  | diagonal (box : List ℚ)
deriving DecidableEq

/-- Model of `calculate_bounding_box_diagonal(box)` (lines 24–28), represented
symbolically (see `GeomVal`). -/
def calculate_bounding_box_diagonal (box : List ℚ) : GeomVal :=
  GeomVal.diagonal box

/-- A node of the output tileset JSON: `boundingVolume.box`, `geometricError`,
optional `content.uri`, optional `refine`, and nested `children`. -/
inductive BTile where
  | mk (box : List ℚ) (geometricError : Option GeomVal) (content : Option String)
      (refine : Option String) (children : List BTile)

/-- Model of `boundingVolume.box` of a node. -/
def BTile.box : BTile → List ℚ
  | .mk b _ _ _ _ => b

/-- Model of `geometricError` of a node. -/
def BTile.geometricError : BTile → Option GeomVal
  | .mk _ g _ _ _ => g

/-- Model of `content.uri` of a node (when the node has content). -/
def BTile.content : BTile → Option String
  | .mk _ _ c _ _ => c

/-- Model of `refine` of a node. -/
def BTile.refine : BTile → Option String
  | .mk _ _ _ r _ => r

/-- Model of `children` of a node. -/
def BTile.children : BTile → List BTile
  | .mk _ _ _ _ c => c

/-- Model of `build_hierarchy(current_level, parent_coords, tiles_by_level)` (lines
42–54): attach, as children of the node at `parent_coords`, every tile of
level `current_level + 1` whose coordinates halve (integer division) to the
parent's, give it the scheduled geometric error of its level, and recurse.

The Python recursion terminates because the level dictionaries are empty
beyond the largest level present; `fuel` makes that measure explicit, and
`restructure_tileset` supplies fuel larger than the largest level so the
`0` case is never reached. -/
def build_hierarchy (levels : List (ℕ × LevelDict)) :
    ℕ → ℕ → (ℕ × ℕ × ℕ) → List BTile
  | 0, _, _ => []
  | fuel + 1, current_level, parent =>
    ((levels_get levels (current_level + 1)).filter fun e =>
        e.1.1 / 2 = parent.1 ∧ e.1.2.1 / 2 = parent.2.1 ∧ e.1.2.2 / 2 = parent.2.2).map
      fun e =>
        BTile.mk e.2.box ((get_geometric_error (current_level + 1)).map GeomVal.q)
          (some e.2.uri) none (build_hierarchy levels fuel (current_level + 1) e.1)

/-- The largest level key present in the grouped tiles (0 when empty). -/
def max_tile_level (levels : List (ℕ × LevelDict)) : ℕ :=
  (levels.map Prod.fst).foldr max 0

/-- The output tileset: `{asset, geometricError, root}` (plus the optional
`transform` copied onto the root node). -/
structure Tileset where
  asset : String
  geometricError : GeomVal
  root : BTile
  transform : Option (List ℚ)

/-- Model of `restructure_tileset` (lines 56–95), on an already-parsed flat tileset:
group the flat children by level, take the first level-0 tile as the root
content, build the nested hierarchy below it, wrap it in a `lod0_tile` with
the fixed geometric error `1.0`, and put a content-less structural root above
it whose geometric error is the diagonal of the root bounding box.  `none`
models the `IndexError` raised when no level-0 tile exists. -/
def restructure_tileset (asset : String) (transform : Option (List ℚ))
    (children : List FlatTile) : Option Tileset :=
  let tiles_by_level := group_tiles_by_level children
  match (levels_get tiles_by_level 0).head? with
  | none => none
  | some (root_coords, root_tile_data) =>
    let root_geometric_error := calculate_bounding_box_diagonal root_tile_data.box
    let lod0_tile :=
      BTile.mk root_tile_data.box (some (GeomVal.q 1)) (some root_tile_data.uri) none
        (build_hierarchy tiles_by_level (max_tile_level tiles_by_level + 1) 0 root_coords)
    let root_node :=
      BTile.mk root_tile_data.box (some root_geometric_error) none (some "REPLACE") [lod0_tile]
    some ⟨asset, root_geometric_error, root_node, transform⟩

/-! ## Mesh model and octree partitioner
(`src/BlenderScripts/adaptiveTiling.py`, duplicated in
`src/BlenderScripts/adaptiveTilingWorker.py`) -/

/-- A point of `R^3`, with exact rational coordinates. -/
abbrev Vec3 := ℚ × ℚ × ℚ

/-- A Blender mesh as the partitioner reads it: vertex positions, faces as
ordered lists of vertex indices, the per-polygon `material_index` attribute,
the material slot list (only its contents as opaque names matter), and an
optional active UV layer holding one UV pair per face corner, aligned with
`faces`. -/
structure Mesh where
  verts : List Vec3
  faces : List (List ℕ)
  face_mats : List ℕ
  mats : List String
  uvs : Option (List (List (ℚ × ℚ)))
deriving DecidableEq

/-- Model of `min(xs)` over a coordinate list (Python's `min` of a nonempty list;
`0` stands in for the empty case, which `get_bounds` never meets because a
mesh object always has a bounding box). -/
def minList (l : List ℚ) : ℚ := l.foldl min (l.headD 0)

/-- Model of `max(xs)`, as `minList`. -/
def maxList (l : List ℚ) : ℚ := l.foldl max (l.headD 0)

/-- The octant midpoints `(x_mid, y_mid, z_mid)` of `bisect_object_octree`
(lines 339–342): per-axis midpoints of the object's bounding box, which
Blender computes from all vertex positions (`obj.bound_box`). -/
def midpoints (m : Mesh) : Vec3 :=
  let xs := m.verts.map fun v => v.1
  let ys := m.verts.map fun v => v.2.1
  let zs := m.verts.map fun v => v.2.2
  ((minList xs + maxList xs) / 2, (minList ys + maxList ys) / 2,
    (minList zs + maxList zs) / 2)

/-- Vertex position by index (faces of a well-formed mesh only hold indices
below `verts.length`). -/
def vertCo (m : Mesh) (i : ℕ) : Vec3 := m.verts.getD i (0, 0, 0)

/-- Model of `face.calc_center_median()`: the arithmetic mean of the face's vertex
positions. -/
def centroid (m : Mesh) (f : List ℕ) : Vec3 :=
  ((f.map fun i => (vertCo m i).1).sum / (f.length : ℚ),
    (f.map fun i => (vertCo m i).2.1).sum / (f.length : ℚ),
    (f.map fun i => (vertCo m i).2.2).sum / (f.length : ℚ))

/-- Octant choice per face (lines 365–372): `dx = 0 if centroid.x < x_mid
else 1`, and likewise for `y`, `z`; a centroid exactly on a midpoint falls
to octant `1`. -/
def octant_of (m : Mesh) (f : List ℕ) : ℕ × ℕ × ℕ :=
  let c := centroid m f
  let mid := midpoints m
  (if c.1 < mid.1 then 0 else 1, if c.2.1 < mid.2.1 then 0 else 1,
    if c.2.2 < mid.2.2 then 0 else 1)

/-- The iteration order `for dx in range(2): for dy in range(2): for dz in
range(2)` over the 8 octants. -/
def octant_order : List (ℕ × ℕ × ℕ) :=
  [(0, 0, 0), (0, 0, 1), (0, 1, 0), (0, 1, 1), (1, 0, 0), (1, 0, 1), (1, 1, 0), (1, 1, 1)]

/-- The `face_materials` list of `bisect_object_octree` (lines 352–359): the
polygons' `material_index` when material slots exist, all zeros otherwise.
(The source's `i if i < len(obj.data.polygons) else 0` guard is always taken
with `i`, since the BMesh face list and the polygon list have equal length.) -/
def face_materials (m : Mesh) : List ℕ :=
  if 0 < m.mats.length then
    (List.range m.faces.length).map fun i => m.face_mats.getD i 0
  else List.replicate m.faces.length 0

/-- Model of `octant_faces[(dx, dy, dz)]`: the `(face_idx, material)` pairs appended,
in face order, for the faces whose centroid falls in the octant. -/
def octant_assigned (m : Mesh) (o : ℕ × ℕ × ℕ) : List (ℕ × ℕ) :=
  ((List.range m.faces.length).filter fun i => octant_of m (m.faces.getD i []) = o).map
    fun i => (i, (face_materials m).getD i 0)

/-- Whether a vertex-index list names some vertex twice (one of the two
conditions on which `bm_chunk.faces.new` raises `ValueError`). -/
def dup_verts : List ℕ → Bool
  | [] => false
  | i :: rest => rest.contains i || dup_verts rest

/-- Whether two faces use the same vertex set (the other `ValueError`
condition of `faces.new`: a face over exactly those vertices already
exists). -/
def same_vert_set (f g : List ℕ) : Bool :=
  f.all g.contains && g.all f.contains

/-- The `try: bm_chunk.faces.new(...) except ValueError` condition: creation
of face `f` fails when `f` repeats a vertex or a previously created face of
this chunk uses the same vertex set. -/
def face_new_fails (created : List (List ℕ)) (f : List ℕ) : Bool :=
  dup_verts f || created.any (same_vert_set · f)

/-- The face-creation loop (lines 416–443): entries of the octant's face list
that are successfully re-created, in order; a failing face is skipped
(and so excluded from `created_faces_materials`) without aborting the loop.
`created` accumulates the vertex-index lists of the faces created so far. -/
def created_entries (m : Mesh) : List (ℕ × ℕ) → List (List ℕ) → List (ℕ × ℕ)
  | [], _ => []
  | e :: rest, created =>
    let f := m.faces.getD e.1 []
    if face_new_fails created f then created_entries m rest created
    else e :: created_entries m rest (created ++ [f])

/-- First-occurrence deduplication (`seen` is the set of already-emitted
indices): the insertion order of the `vert_map` dictionary. -/
def first_occurrences : List ℕ → List ℕ → List ℕ
  | [], _ => []
  | i :: rest, seen =>
    if seen.contains i then first_occurrences rest seen
    else i :: first_occurrences rest (i :: seen)

/-- The chunk's vertex list as original-mesh indices: vertices are created on
first appearance while iterating every assigned face (they are created before
`faces.new` is attempted, so even the vertices of skipped faces appear). -/
def chunk_vert_ids (m : Mesh) (face_list : List (ℕ × ℕ)) : List ℕ :=
  first_occurrences ((face_list.map fun e => m.faces.getD e.1 []).flatten) []

/-- Model of `vert_map[orig_index]`: a vertex's index local to the chunk. -/
def remap_index (ids : List ℕ) (i : ℕ) : ℕ := ids.indexOf i

/-- The chunk mesh built from one octant's face list (lines 403–462): a
compact vertex set in first-appearance order, the successfully created faces
remapped to it, their materials (`created_faces_materials`, applied to the
polygons in order), the original's material slots, and per-corner UVs copied
for the created faces when the original has a UV layer. -/
def build_chunk (m : Mesh) (face_list : List (ℕ × ℕ)) : Mesh :=
  let created := created_entries m face_list []
  let ids := chunk_vert_ids m face_list
  { verts := ids.map (vertCo m)
    faces := created.map fun e => (m.faces.getD e.1 []).map (remap_index ids)
    face_mats := created.map Prod.snd
    mats := m.mats
    uvs := m.uvs.map fun uv => created.map fun e => uv.getD e.1 [] }

/-- Model of `bisect_object_octree(obj, tile_level, ix, iy, iz)` (lines 319–477):
visit the 8 octants in iteration order; skip an octant with no assigned
faces; build the chunk and keep it only when it has both faces and vertices.
Each kept chunk is returned with its child coordinates
`(ix*2+dx, iy*2+dy, iz*2+dz)`; in the source the chunk additionally carries
the name `"{tile_level}_{new_ix}_{new_iy}_{new_iz}"`, which the scheduler
parses back into exactly `(tile_level, new_ix, new_iy, new_iz)`. -/
def bisect_object_octree (m : Mesh) (tile_level ix iy iz : ℕ) :
    List (Mesh × ℕ × ℕ × ℕ) :=
  let _ := tile_level
  octant_order.filterMap fun o =>
    let face_list := octant_assigned m o
    if face_list.isEmpty then none
    else
      let chunk := build_chunk m face_list
      if 0 < chunk.faces.length ∧ 0 < chunk.verts.length then
        some (chunk, ix * 2 + o.1, iy * 2 + o.2.1, iz * 2 + o.2.2)
      else none

/-! ## Adaptive tile scheduler (`process_object_adaptive`) -/

/-- Model of `bmesh.ops.triangulate` turns an `n`-gon into `n - 2` triangles, so
`get_triangle_count(obj)` (lines 213–238, caching elided as a pure
memoization) is the sum of `len(face) - 2` over the faces. -/
def get_triangle_count (m : Mesh) : ℕ :=
  (m.faces.map fun f => f.length - 2).sum

/-- An object name.  Names in the source are strings: partition chunks and
decimated placeholders are named `"{level}_{ix}_{iy}_{iz}"` (suffixed
`"_decimated"` for placeholders, the `dec` flag here), a format injective in
its four numbers, and the initially imported object keeps whatever external
name the import gave it. -/
inductive TileName where
  | ext (s : String)
  | tile (level ix iy iz : ℕ) (dec : Bool)
deriving DecidableEq

/-- Model of `clean_object_name(obj_name)`: remove the `"_decimated"` suffix
(`str.replace`, which on a conventional tile name only ever finds the suffix,
and on an external name replaces every occurrence). -/
def clean_object_name : TileName → TileName
  | .ext s => .ext (s.replace "_decimated" "")
  | .tile l x y z _ => .tile l x y z false

/-- A scene object: a mesh datablock plus the object name. -/
structure TiledObj where
  mesh : Mesh
  name : TileName
deriving DecidableEq

/-- Model of `duplicate_object(obj, new_name)` (lines 240–259): `obj.data.copy()`
already carries the material slots, and the explicit
`new_mesh.materials.append(mat)` loop then appends them again, so the copy's
slot list is doubled.  Geometry is unchanged. -/
def duplicate_object (m : Mesh) (new_name : TileName) : TiledObj :=
  ⟨{ m with mats := m.mats ++ m.mats }, new_name⟩

/-- Model of `decimate_object(obj, target_triangles)` (lines 261–291): a no-op when
the object is already at or below the target; otherwise one application of
the external decimate modifier `dec` at ratio
`target_triangles / current_triangles` (its resulting triangle count is not
re-verified). -/
def decimate_object (dec : Mesh → ℚ → Mesh) (m : Mesh) (target_triangles : ℕ) : Mesh :=
  if get_triangle_count m ≤ target_triangles then m
  else dec m ((target_triangles : ℚ) / (get_triangle_count m : ℚ))

/-- One tile written by `export_object_test`: the cleaned object name, the
mesh, and (recorded for specification purposes) whether the export came from
a decimation branch of the scheduler. -/
structure ExportedTile where
  name : TileName
  mesh : Mesh
  fromDecimation : Bool
deriving DecidableEq

/-- Model of `process_object_adaptive(obj, tile_level, ix, iy, iz, max_level)`
(lines 531–582), parameterized by the external decimator `dec` and
`triangle_threshold` (`TRIANGLE_THRESHOLD`, module constant `20000` in
`adaptiveTiling.py`, command-line argument of `adaptiveTilingWorker.py`):

1. at or below the threshold, export the fragment unchanged;
2. else at `tile_level >= max_level`, decimate in place and export;
3. else export a decimated duplicate named
   `"{tile_level}_{ix}_{iy}_{iz}_decimated"` as the coarse placeholder, split
   the original undecimated fragment with `bisect_object_octree` at
   `tile_level + 1`, and recurse into each returned chunk with the level and
   coordinates parsed from its name (the parse of a constructed chunk name
   always succeeds and returns the constructing numbers). -/
def process_object_adaptive (dec : Mesh → ℚ → Mesh) (triangle_threshold : ℕ)
    (obj : TiledObj) (tile_level ix iy iz max_level : ℕ) : List ExportedTile :=
  if get_triangle_count obj.mesh ≤ triangle_threshold then
    [⟨clean_object_name obj.name, obj.mesh, false⟩]
  else if h : max_level ≤ tile_level then
    [⟨clean_object_name obj.name, decimate_object dec obj.mesh triangle_threshold, true⟩]
  else
    let dupl := duplicate_object obj.mesh (.tile tile_level ix iy iz true)
    ⟨clean_object_name dupl.name, decimate_object dec dupl.mesh triangle_threshold, true⟩ ::
      (bisect_object_octree obj.mesh (tile_level + 1) ix iy iz).flatMap fun c =>
        process_object_adaptive dec triangle_threshold
          ⟨c.1, .tile (tile_level + 1) c.2.1 c.2.2.1 c.2.2.2 false⟩
          (tile_level + 1) c.2.1 c.2.2.1 c.2.2.2 max_level
termination_by max_level - tile_level
decreasing_by omega

/-! ## Closed forms and demonstration inputs used by the theorems -/

/-- Closed form of the adaptive texture size at `base_resolution = 1024` (the
only value the pipeline ever persists), as a function of how many levels the
tile sits past the budget level: `1024, 256, 128, 32, 32, …`. -/
def shrink_table (k : ℕ) : ℕ :=
  if k = 0 then 1024 else if k = 1 then 256 else if k = 2 then 128 else 32

/-- A mesh whose two faces have centroids in two different octants: two
triangles near the origin and near `x = 9` (`y`/`z` are flat, so those axes
tie and fall to octant 1). -/
def demo_mesh : Mesh :=
  { verts := [(0, 0, 0), (1, 0, 0), (0, 1, 0), (9, 0, 0), (10, 0, 0), (9, 1, 0)]
    faces := [[0, 1, 2], [3, 4, 5]]
    face_mats := [0, 1]
    mats := ["matA", "matB"]
    uvs := some [[(0, 0), (1, 0), (0, 1)], [(0, 0), (1, 0), (1, 1)]] }

/-- A mesh all of whose faces fall into the single octant `(0,0,0)`: faces
`[0,1,2]` (centroid `(1,0,0)`) and `[0,1,3]` (centroid `(10/3,3,3)`), both
below the midpoint `(9/2, 9/2, 9/2)` on every axis.  Splitting it returns one
chunk that is the whole mesh again. -/
def all_in_one_octant_mesh : Mesh :=
  { verts := [(0, 0, 0), (1, 0, 0), (2, 0, 0), (9, 9, 9)]
    faces := [[0, 1, 2], [0, 1, 3]]
    face_mats := [0, 0]
    mats := []
    uvs := none }

/-- Flat input tiles for the hierarchy scenario: one level-0 tile and two
level-1 tiles. -/
def demo_flat_tiles : List FlatTile :=
  [⟨"0_0_0_0.glb", [0, 0, 0, 5, 0, 0, 0, 5, 0, 0, 0, 5]⟩,
   ⟨"1_0_0_0.glb", [1, 1, 1, 2, 0, 0, 0, 2, 0, 0, 0, 2]⟩,
   ⟨"1_1_0_0.glb", [3, 1, 1, 2, 0, 0, 0, 2, 0, 0, 0, 2]⟩]

/-! ## Theorems: texture sizing (claims C3, C6, C8, C9) -/

/-! ## Theorems: texture sizing -/

theorem log2_eq_of_bounds {p n : ℕ} (h1 : 2 ^ p ≤ n) (h2 : n < 2 ^ (p + 1)) :
    Nat.log2 n = p := by
  rw [Nat.log2_eq_log_two]
  exact Nat.log_eq_of_pow_le_of_lt_pow h1 h2

theorem clamp_to_power_of_2_spec (x : ℚ) (p : ℕ)
    (h32 : ((32 : ℕ) : ℚ) ≤ x) (h1024 : x ≤ ((1024 : ℕ) : ℚ))
    (hlo : ((2 ^ p : ℕ) : ℚ) ≤ x) (hhi : x < ((2 ^ (p + 1) : ℕ) : ℚ)) :
    clamp_to_power_of_2 x 32 1024 =
      max 32 (min 1024
        (if x - ((2 ^ p : ℕ) : ℚ) < ((2 ^ (p + 1) : ℕ) : ℚ) - x then 2 ^ p else 2 ^ (p + 1))) := by
  have hx0 : (0 : ℚ) ≤ x := le_trans (by norm_num) h32
  have hfl_lo : 2 ^ p ≤ ⌊x⌋₊ := Nat.le_floor hlo
  have hfl_hi : ⌊x⌋₊ < 2 ^ (p + 1) := (Nat.floor_lt hx0).mpr hhi
  have hlog : Nat.log2 ⌊x⌋₊ = p := log2_eq_of_bounds hfl_lo hfl_hi
  simp only [clamp_to_power_of_2]
  rw [min_eq_right h1024, max_eq_right h32, hlog]

theorem clamp_le_32 (x : ℚ) (hx : x ≤ ((32 : ℕ) : ℚ)) :
    clamp_to_power_of_2 x 32 1024 = 32 := by
  simp only [clamp_to_power_of_2]
  have hv : max ((32 : ℕ) : ℚ) (min ((1024 : ℕ) : ℚ) x) = ((32 : ℕ) : ℚ) :=
    max_eq_left (le_trans (min_le_right _ _) hx)
  rw [hv, Nat.floor_natCast]
  have hlog : Nat.log2 32 = 5 := log2_eq_of_bounds (by norm_num) (by norm_num)
  rw [hlog]
  norm_num

theorem clamp_past_1 : clamp_to_power_of_2 (((1024 : ℕ) : ℚ) / (2828 / 1000 : ℚ) ^ 1) 32 1024 = 256 := by
  rw [clamp_to_power_of_2_spec _ 8 (by norm_num) (by norm_num) (by norm_num) (by norm_num)]
  norm_num

theorem clamp_past_2 : clamp_to_power_of_2 (((1024 : ℕ) : ℚ) / (2828 / 1000 : ℚ) ^ 2) 32 1024 = 128 := by
  rw [clamp_to_power_of_2_spec _ 7 (by norm_num) (by norm_num) (by norm_num) (by norm_num)]
  norm_num

theorem clamp_past_3 : clamp_to_power_of_2 (((1024 : ℕ) : ℚ) / (2828 / 1000 : ℚ) ^ 3) 32 1024 = 32 := by
  rw [clamp_to_power_of_2_spec _ 5 (by norm_num) (by norm_num) (by norm_num) (by norm_num)]
  norm_num

theorem reduced_le_32_of_4_le (k : ℕ) (hk : 4 ≤ k) :
    ((1024 : ℕ) : ℚ) / (2828 / 1000 : ℚ) ^ k ≤ ((32 : ℕ) : ℚ) := by
  have hq : (1 : ℚ) ≤ 2828 / 1000 := by norm_num
  have h4 : (32 : ℚ) ≤ (2828 / 1000 : ℚ) ^ 4 := by norm_num
  have hpow : (2828 / 1000 : ℚ) ^ 4 ≤ (2828 / 1000 : ℚ) ^ k := pow_le_pow_right₀ hq hk
  have hpos : (0 : ℚ) < (2828 / 1000 : ℚ) ^ k := pow_pos (by norm_num) k
  rw [div_le_iff₀ hpos]
  push_cast
  nlinarith

theorem size_level_at_1024 (sp l : ℕ) :
    get_adaptive_texture_size_level l sp 1024 =
      shrink_table (l - calculate_budget_exhausted_level sp 1024) := by
  unfold get_adaptive_texture_size_level
  by_cases h0 : l = 0
  · subst h0
    simp [shrink_table]
  · rw [if_neg h0]
    set B := calculate_budget_exhausted_level sp 1024 with hB
    by_cases h1 : l ≤ B
    · rw [if_pos h1, Nat.sub_eq_zero_of_le h1]
      simp [shrink_table]
    · rw [if_neg h1]
      push_neg at h1
      rcases (by omega : l - B = 1 ∨ l - B = 2 ∨ l - B = 3 ∨ 4 ≤ l - B) with h | h | h | h
      · rw [h, clamp_past_1, show shrink_table 1 = 256 from rfl]
      · rw [h, clamp_past_2, show shrink_table 2 = 128 from rfl]
      · rw [h, clamp_past_3, show shrink_table 3 = 32 from rfl]
      · rw [clamp_le_32 _ (reduced_le_32_of_4_le _ h)]
        unfold shrink_table
        split_ifs <;> omega

theorem shrink_table_antitone {k k' : ℕ} (h : k ≤ k') : shrink_table k' ≤ shrink_table k := by
  unfold shrink_table
  split_ifs <;> omega


theorem cumulative_pixels_zero (base : ℕ) : cumulative_pixels base 0 = base ^ 2 := by
  simp [cumulative_pixels]

theorem cumulative_pixels_succ (base L : ℕ) :
    cumulative_pixels base (L + 1) = cumulative_pixels base L + 8 ^ (L + 1) * base ^ 2 := by
  simp [cumulative_pixels, Finset.sum_range_succ]

theorem budget_level_loop_inv (sp base : ℕ) :
    ∀ fuel level cum, level + fuel = 10 →
      cum = (if level = 0 then 0 else cumulative_pixels base (level - 1)) →
      (∀ L, L < level → cumulative_pixels base L < sp) →
      budget_level_loop sp base fuel level cum ≤ 10 ∧
      (∀ L, L < budget_level_loop sp base fuel level cum → cumulative_pixels base L < sp) ∧
      (budget_level_loop sp base fuel level cum < 10 →
        sp ≤ cumulative_pixels base (budget_level_loop sp base fuel level cum)) := by
  intro fuel
  induction fuel with
  | zero =>
    intro level cum hlf _ hprev
    have hl : level = 10 := by omega
    subst hl
    refine ⟨le_refl _, hprev, fun h => absurd h (by simp [budget_level_loop])⟩
  | succ fuel ih =>
    intro level cum hlf hcum hprev
    by_cases h1 : cum < sp
    · have hc : cum + (if 0 < level then 8 ^ level else 1) * base ^ 2 = cumulative_pixels base level := by
        rcases Nat.eq_zero_or_pos level with h0 | hpos
        · subst h0
          simp only [if_pos rfl] at hcum
          simp [hcum, cumulative_pixels_zero]
        · obtain ⟨level', rfl⟩ : ∃ l', level = l' + 1 := ⟨level - 1, by omega⟩
          rw [if_neg (by omega : ¬ level' + 1 = 0)] at hcum
          simp only [Nat.add_sub_cancel] at hcum
          rw [hcum, if_pos hpos, cumulative_pixels_succ]
      by_cases h2 : sp ≤ cum + (if 0 < level then 8 ^ level else 1) * base ^ 2
      · have heq : budget_level_loop sp base (fuel + 1) level cum = level := by
          simp only [budget_level_loop]
          rw [if_pos h1, if_pos h2]
        rw [heq]
        exact ⟨by omega, hprev, fun _ => hc ▸ h2⟩
      · have heq : budget_level_loop sp base (fuel + 1) level cum =
            budget_level_loop sp base fuel (level + 1)
              (cum + (if 0 < level then 8 ^ level else 1) * base ^ 2) := by
          simp only [budget_level_loop]
          rw [if_pos h1, if_neg h2]
        rw [heq]
        apply ih (level + 1) _ (by omega)
        · rw [if_neg (by omega : ¬ level + 1 = 0)]
          simp only [Nat.add_sub_cancel]
          exact hc
        · intro L hL
          rcases (by omega : L < level ∨ L = level) with hL' | hL'
          · exact hprev L hL'
          · subst hL'
            rw [← hc]
            omega
    · have heq : budget_level_loop sp base (fuel + 1) level cum = level := by
        simp only [budget_level_loop]
        rw [if_neg h1]
      rw [heq]
      rcases Nat.eq_zero_or_pos level with h0 | hpos
      · subst h0
        have hsp : sp = 0 := by
          simp at hcum
          omega
        exact ⟨by omega, fun L hL => absurd hL (by omega), fun _ => by simp [hsp]⟩
      · exfalso
        have := hprev (level - 1) (by omega)
        rw [if_neg (by omega : ¬ level = 0)] at hcum
        omega

theorem budget_characterization (sp base : ℕ) :
    calculate_budget_exhausted_level sp base ≤ 10 ∧
    (∀ L, L < calculate_budget_exhausted_level sp base → cumulative_pixels base L < sp) ∧
    (calculate_budget_exhausted_level sp base < 10 →
      sp ≤ cumulative_pixels base (calculate_budget_exhausted_level sp base)) :=
  budget_level_loop_inv sp base 10 0 0 rfl (by simp) (fun L hL => absurd hL (by omega))

/-- C3: for a tile at parsed level `tile_level > 0`, the adaptive texture
resolution is computed from the budget level — the smallest level (capped at
10) whose cumulative pixel sum (1 tile at level 0, `8^d` tiles at level
`d > 0`, each at `base_resolution^2` pixels) reaches `source_texture_pixels`:
at or below it the resolution is `base_resolution`, past it the resolution is
`base_resolution / 2.828^(tile_level - budget_level)` snapped to the nearest
power of two in `[32, 1024]`, where an exact tie between neighbouring powers
of two resolves upward through the strict `<` comparison (raw `96`, midway
between `64` and `128`, resolves to `128`). -/
theorem texture_resolution_formula (sp base tile_level : ℕ) :
    (calculate_budget_exhausted_level sp base ≤ 10 ∧
     (∀ L, L < calculate_budget_exhausted_level sp base → cumulative_pixels base L < sp) ∧
     (calculate_budget_exhausted_level sp base < 10 →
       sp ≤ cumulative_pixels base (calculate_budget_exhausted_level sp base))) ∧
    (0 < tile_level → tile_level ≤ calculate_budget_exhausted_level sp base →
      get_adaptive_texture_size_level tile_level sp base = base) ∧
    (calculate_budget_exhausted_level sp base < tile_level →
      get_adaptive_texture_size_level tile_level sp base =
        clamp_to_power_of_2
          ((base : ℚ) / (2828 / 1000 : ℚ) ^ (tile_level - calculate_budget_exhausted_level sp base))
          32 1024) ∧
    clamp_to_power_of_2 96 32 1024 = 128 := by
  refine ⟨budget_characterization sp base, ?_, ?_, ?_⟩
  · intro h0 h1
    unfold get_adaptive_texture_size_level
    rw [if_neg (by omega : ¬ tile_level = 0), if_pos h1]
  · intro h
    unfold get_adaptive_texture_size_level
    rw [if_neg (by omega : ¬ tile_level = 0), if_neg (by omega : ¬ tile_level ≤ calculate_budget_exhausted_level sp base)]
  · rw [clamp_to_power_of_2_spec 96 6 (by norm_num) (by norm_num) (by norm_num) (by norm_num)]
    norm_num

/-- Witness for C3 at concrete metadata: an 8-megapixel source keeps level 1
at base resolution (its budget level is 1), and a 1-megapixel source
(budget level 0) sends level 3 through the shrink formula. -/
theorem texture_resolution_formula_witness :
    get_adaptive_texture_size_level 1 8388608 1024 = 1024 ∧
    get_adaptive_texture_size_level 3 1048576 1024 =
      clamp_to_power_of_2
        (((1024 : ℕ) : ℚ) / (2828 / 1000 : ℚ) ^ (3 - calculate_budget_exhausted_level 1048576 1024))
        32 1024 :=
  ⟨(texture_resolution_formula 8388608 1024 1).2.1 (by norm_num) (by decide),
   (texture_resolution_formula 1048576 1024 3).2.2.1 (by decide)⟩

/-- C6: a tile whose name's leading integer is `0` resolves to `1024`,
whatever the persisted metadata values are. -/
theorem level_zero_resolution (tile_name : String) (sp tet base : ℕ)
    (h : parse_leading_tile_level tile_name = some 0) :
    get_adaptive_texture_size tile_name sp tet base = some 1024 := by
  unfold get_adaptive_texture_size
  rw [h]
  simp [get_adaptive_texture_size_level]

/-- Witness for C6: the level-0 tile name `"0_5_3_2"` with arbitrary
metadata numbers. -/
theorem level_zero_resolution_witness :
    get_adaptive_texture_size "0_5_3_2" 123456 77 512 = some 1024 :=
  level_zero_resolution "0_5_3_2" 123456 77 512 (by decide)

theorem first_found_eq_none (fs : String → Option TextureMetadata) :
    ∀ l, (∀ p ∈ l, fs p = none) → first_found fs l = none := by
  intro l h
  induction l with
  | nil => rfl
  | cons p ps ih =>
    show (match fs p with | some m => some m | none => first_found fs ps) = none
    rw [h p (List.mem_cons_self p ps)]
    exact ih fun q hq => h q (List.mem_cons_of_mem _ hq)

/-- C8: when the metadata sidecar is found at none of the searched locations
(the output directory and its three parents), the texture-sizing step of
`bake_single_tile` returns `1024` for every tile, without failing. -/
theorem metadata_missing_fallback (fs : String → Option TextureMetadata)
    (output_dir tile_name : String)
    (h : ∀ p ∈ metadata_search_paths output_dir, fs p = none) :
    bake_tile_texture_size fs output_dir tile_name = some 1024 := by
  unfold bake_tile_texture_size load_texture_metadata
  rw [first_found_eq_none fs _ h]

/-- Witness for C8: an empty filesystem. -/
theorem metadata_missing_fallback_witness :
    bake_tile_texture_size (fun _ => none) "tiles/TileLevel_2/baked" "2_0_1_0" = some 1024 :=
  metadata_missing_fallback (fun _ => none) "tiles/TileLevel_2/baked" "2_0_1_0"
    (fun _ _ => rfl)

/-- C9: at the persisted base resolution (`base_texture_size` is always
written as `1024`), the per-tile resolution is non-increasing in the tile
level: the closed form is `shrink_table` of the distance past the budget
level, which is antitone. -/
theorem resolution_monotone_in_level (sp a b : ℕ) (h : a < b) :
    get_adaptive_texture_size_level b sp 1024 ≤ get_adaptive_texture_size_level a sp 1024 := by
  rw [size_level_at_1024, size_level_at_1024]
  exact shrink_table_antitone (Nat.sub_le_sub_right h.le _)

/-- Witness for C9 at levels `1 < 3` under a 1-megapixel source. -/
theorem resolution_monotone_in_level_witness :
    get_adaptive_texture_size_level 3 1048576 1024 ≤
      get_adaptive_texture_size_level 1 1048576 1024 :=
  resolution_monotone_in_level 1048576 1 3 (by norm_num)

/-! ## Theorems: tileset hierarchy builder (claims C7, C10) -/

/-- C7: the hierarchy builder attaches a tile at `(L+1, cx, cy, cz)` under the
node at `(L, px, py, pz)` exactly when `cx / 2 = px`, `cy / 2 = py` and
`cz / 2 = pz`; every attached tile carries the scheduled geometric error of
its level (`0.1`, `0.05`, `0.005`, then `0.005 / 2^(L-3)`); and the output's
absolute root is a content-less node whose geometric error is the diagonal of
the root bounding box and whose sole child is the level-0 tile. -/
theorem hierarchy_builder_structure :
    (∀ levels fuel current parent (t : BTile),
      t ∈ build_hierarchy levels (fuel + 1) current parent ↔
        ∃ e, e ∈ levels_get levels (current + 1) ∧
          e.1.1 / 2 = parent.1 ∧ e.1.2.1 / 2 = parent.2.1 ∧ e.1.2.2 / 2 = parent.2.2 ∧
          t = BTile.mk e.2.box ((get_geometric_error (current + 1)).map GeomVal.q)
                (some e.2.uri) none (build_hierarchy levels fuel (current + 1) e.1)) ∧
    (get_geometric_error 1 = some (1 / 10) ∧ get_geometric_error 2 = some (5 / 100) ∧
      get_geometric_error 3 = some (5 / 1000) ∧
      (∀ L, 3 < L → get_geometric_error L = some ((5 / 1000) / 2 ^ (L - 3)))) ∧
    (∀ asset transform children root_coords root_tile,
      (levels_get (group_tiles_by_level children) 0).head? = some (root_coords, root_tile) →
        restructure_tileset asset transform children =
          some ⟨asset, GeomVal.diagonal root_tile.box,
            BTile.mk root_tile.box (some (GeomVal.diagonal root_tile.box)) none (some "REPLACE")
              [BTile.mk root_tile.box (some (GeomVal.q 1)) (some root_tile.uri) none
                (build_hierarchy (group_tiles_by_level children)
                  (max_tile_level (group_tiles_by_level children) + 1) 0 root_coords)],
            transform⟩) := by
  refine ⟨?_, ⟨rfl, rfl, rfl, ?_⟩, ?_⟩
  · intro levels fuel current parent t
    simp only [build_hierarchy, List.mem_map, List.mem_filter, decide_eq_true_eq]
    constructor
    · rintro ⟨e, ⟨he, h1, h2, h3⟩, rfl⟩
      exact ⟨e, he, h1, h2, h3, rfl⟩
    · rintro ⟨e, he, h1, h2, h3, rfl⟩
      exact ⟨e, ⟨he, h1, h2, h3⟩, rfl⟩
  · intro L hL
    unfold get_geometric_error
    rw [if_neg (by omega : ¬ L = 0), if_neg (by omega : ¬ L = 1),
      if_neg (by omega : ¬ L = 2), if_neg (by omega : ¬ L = 3)]
  · intro asset transform children root_coords root_tile h
    simp only [restructure_tileset, calculate_bounding_box_diagonal, h]

/-- Witness for C7: the three-tile scenario (`0_0_0_0`, `1_0_0_0`, `1_1_0_0`)
restructures into a content-less root whose sole child is the level-0 tile. -/
theorem hierarchy_builder_structure_witness :
    restructure_tileset "1.0" none demo_flat_tiles =
      some ⟨"1.0", GeomVal.diagonal [0, 0, 0, 5, 0, 0, 0, 5, 0, 0, 0, 5],
        BTile.mk [0, 0, 0, 5, 0, 0, 0, 5, 0, 0, 0, 5]
          (some (GeomVal.diagonal [0, 0, 0, 5, 0, 0, 0, 5, 0, 0, 0, 5])) none (some "REPLACE")
          [BTile.mk [0, 0, 0, 5, 0, 0, 0, 5, 0, 0, 0, 5] (some (GeomVal.q 1))
            (some "0_0_0_0.glb") none
            (build_hierarchy (group_tiles_by_level demo_flat_tiles)
              (max_tile_level (group_tiles_by_level demo_flat_tiles) + 1) 0 (0, 0, 0))],
        none⟩ :=
  hierarchy_builder_structure.2.2 "1.0" none demo_flat_tiles (0, 0, 0)
    ⟨"0_0_0_0.glb", [0, 0, 0, 5, 0, 0, 0, 5, 0, 0, 0, 5]⟩ (by decide)

/-- C10: the level-0 content tile (the sole child of the structural root) is
always given the fixed geometric error `1.0`, whatever its bounding volume or
the inputs; the hardcoded schedule applies only from level 1 on
(`get_geometric_error 0` is `None`). -/
theorem lod0_fixed_geometric_error (asset : String) (transform : Option (List ℚ))
    (children : List FlatTile) (root_coords : ℕ × ℕ × ℕ) (root_tile : FlatTile)
    (h : (levels_get (group_tiles_by_level children) 0).head? = some (root_coords, root_tile)) :
    ∃ ts, restructure_tileset asset transform children = some ts ∧
      ts.root.children =
        [BTile.mk root_tile.box (some (GeomVal.q 1)) (some root_tile.uri) none
          (build_hierarchy (group_tiles_by_level children)
            (max_tile_level (group_tiles_by_level children) + 1) 0 root_coords)] ∧
      ts.root.children.map BTile.geometricError = [some (GeomVal.q 1)] ∧
      get_geometric_error 0 = none := by
  have heq : restructure_tileset asset transform children =
      some ⟨asset, GeomVal.diagonal root_tile.box,
        BTile.mk root_tile.box (some (GeomVal.diagonal root_tile.box)) none (some "REPLACE")
          [BTile.mk root_tile.box (some (GeomVal.q 1)) (some root_tile.uri) none
            (build_hierarchy (group_tiles_by_level children)
              (max_tile_level (group_tiles_by_level children) + 1) 0 root_coords)],
        transform⟩ := by
    simp only [restructure_tileset, calculate_bounding_box_diagonal, h]
  exact ⟨_, heq, rfl, rfl, rfl⟩

/-- Witness for C10 on the three-tile scenario. -/
theorem lod0_fixed_geometric_error_witness :
    ∃ ts, restructure_tileset "1.0" none demo_flat_tiles = some ts ∧
      ts.root.children =
        [BTile.mk [0, 0, 0, 5, 0, 0, 0, 5, 0, 0, 0, 5] (some (GeomVal.q 1))
          (some "0_0_0_0.glb") none
          (build_hierarchy (group_tiles_by_level demo_flat_tiles)
            (max_tile_level (group_tiles_by_level demo_flat_tiles) + 1) 0 (0, 0, 0))] ∧
      ts.root.children.map BTile.geometricError = [some (GeomVal.q 1)] ∧
      get_geometric_error 0 = none :=
  lod0_fixed_geometric_error "1.0" none demo_flat_tiles (0, 0, 0)
    ⟨"0_0_0_0.glb", [0, 0, 0, 5, 0, 0, 0, 5, 0, 0, 0, 5]⟩ (by decide)

/-! ## Theorems: spatial partitioner (claims C2, C4) -/

theorem octant_of_mem_order (m : Mesh) (f : List ℕ) : octant_of m f ∈ octant_order := by
  simp only [octant_of, octant_order]
  split_ifs <;> simp

theorem octant_order_bounds {o : ℕ × ℕ × ℕ} (ho : o ∈ octant_order) :
    o.1 ≤ 1 ∧ o.2.1 ≤ 1 ∧ o.2.2 ≤ 1 := by
  fin_cases ho <;> norm_num

theorem mem_bisect_iff (m : Mesh) (L x y z : ℕ) (p : Mesh × ℕ × ℕ × ℕ) :
    p ∈ bisect_object_octree m L x y z ↔
      ∃ o ∈ octant_order, ¬(octant_assigned m o).isEmpty = true ∧
        0 < (build_chunk m (octant_assigned m o)).faces.length ∧
        0 < (build_chunk m (octant_assigned m o)).verts.length ∧
        p = (build_chunk m (octant_assigned m o), x * 2 + o.1, y * 2 + o.2.1, z * 2 + o.2.2) := by
  simp only [bisect_object_octree, List.mem_filterMap]
  constructor
  · rintro ⟨o, ho, he⟩
    by_cases h1 : (octant_assigned m o).isEmpty = true
    · rw [if_pos h1] at he
      exact absurd he (by simp)
    · rw [if_neg h1] at he
      by_cases h2 : 0 < (build_chunk m (octant_assigned m o)).faces.length ∧
          0 < (build_chunk m (octant_assigned m o)).verts.length
      · rw [if_pos h2] at he
        simp only [Option.some.injEq] at he
        exact ⟨o, ho, h1, h2.1, h2.2, he.symm⟩
      · rw [if_neg h2] at he
        exact absurd he (by simp)
  · rintro ⟨o, ho, h1, h2, h3, rfl⟩
    refine ⟨o, ho, ?_⟩
    rw [if_neg h1, if_pos ⟨h2, h3⟩]

/-- C4: per axis the octant choice is `0` exactly when the face centroid is
strictly below the bounding-box midpoint (a tie falls to octant `1`), and
every chunk returned by the partitioner carries coordinates
`(ix*2+dx, iy*2+dy, iz*2+dz)` with each `d ≤ 1`, so halving them (integer
division) recovers the parent coordinates. -/
theorem octant_rule_and_coordinate_containment (m : Mesh) (f : List ℕ) (L x y z : ℕ) :
    (((octant_of m f).1 = 0 ↔ (centroid m f).1 < (midpoints m).1) ∧
     ((octant_of m f).1 = 1 ↔ ¬(centroid m f).1 < (midpoints m).1) ∧
     ((octant_of m f).2.1 = 0 ↔ (centroid m f).2.1 < (midpoints m).2.1) ∧
     ((octant_of m f).2.1 = 1 ↔ ¬(centroid m f).2.1 < (midpoints m).2.1) ∧
     ((octant_of m f).2.2 = 0 ↔ (centroid m f).2.2 < (midpoints m).2.2) ∧
     ((octant_of m f).2.2 = 1 ↔ ¬(centroid m f).2.2 < (midpoints m).2.2)) ∧
    (∀ p ∈ bisect_object_octree m L x y z,
      ∃ dx dy dz, dx ≤ 1 ∧ dy ≤ 1 ∧ dz ≤ 1 ∧
        p.2 = (x * 2 + dx, y * 2 + dy, z * 2 + dz) ∧
        p.2.1 / 2 = x ∧ p.2.2.1 / 2 = y ∧ p.2.2.2 / 2 = z) := by
  constructor
  · unfold octant_of
    refine ⟨?_, ?_, ?_, ?_, ?_, ?_⟩ <;> (simp only []; split_ifs with h <;> simp [h])
  · intro p hp
    rw [mem_bisect_iff] at hp
    obtain ⟨o, ho, -, -, -, rfl⟩ := hp
    obtain ⟨h1, h2, h3⟩ := octant_order_bounds ho
    refine ⟨o.1, o.2.1, o.2.2, h1, h2, h3, rfl, ?_, ?_, ?_⟩ <;> (dsimp only; omega)

/-- Witness for C4: the two-octant demo mesh. -/
theorem octant_rule_witness :
    ((octant_of demo_mesh [0, 1, 2]).1 = 0 ∧ (octant_of demo_mesh [0, 1, 2]).2.2 = 1) ∧
    ∀ p ∈ bisect_object_octree demo_mesh 1 0 0 0,
      p.2.1 / 2 = 0 ∧ p.2.2.1 / 2 = 0 ∧ p.2.2.2 / 2 = 0 := by
  constructor
  · constructor
    · exact ((octant_rule_and_coordinate_containment demo_mesh [0, 1, 2] 1 0 0 0).1.1).mpr
        (by norm_num [centroid, midpoints, minList, maxList, vertCo, demo_mesh])
    · exact ((octant_rule_and_coordinate_containment demo_mesh [0, 1, 2] 1 0 0 0).1.2.2.2.2.2).mpr
        (by norm_num [centroid, midpoints, minList, maxList, vertCo, demo_mesh])
  · intro p hp
    have := (octant_rule_and_coordinate_containment demo_mesh [] 1 0 0 0).2 p hp
    obtain ⟨dx, dy, dz, -, -, -, -, h⟩ := this
    exact h

theorem map_fst_pair (g : ℕ → ℕ) (l : List ℕ) :
    (l.map fun i => (i, g i)).map Prod.fst = l := by
  induction l with
  | nil => rfl
  | cons a t ih => simp [ih]

theorem octant_assigned_map_fst (m : Mesh) (o : ℕ × ℕ × ℕ) :
    (octant_assigned m o).map Prod.fst =
      (List.range m.faces.length).filter fun i =>
        decide (octant_of m (m.faces.getD i []) = o) := by
  unfold octant_assigned
  rw [map_fst_pair]

theorem count_filter_decide (a : ℕ) (p : ℕ → Prop) [DecidablePred p] (l : List ℕ) :
    (l.filter fun i => decide (p i)).count a = if p a then l.count a else 0 := by
  split_ifs with h
  · exact List.count_filter (by simpa using h)
  · exact List.count_eq_zero_of_not_mem fun hm => h (by simpa using List.of_mem_filter hm)

theorem count_range_eq (a n : ℕ) : (List.range n).count a = if a < n then 1 else 0 := by
  by_cases h : a < n
  · rw [if_pos h]
    exact List.count_eq_one_of_mem (List.nodup_range n) (List.mem_range.mpr h)
  · rw [if_neg h]
    exact List.count_eq_zero_of_not_mem fun hm => h (List.mem_range.mp hm)

theorem created_entries_sublist (m : Mesh) :
    ∀ face_list acc, (created_entries m face_list acc).Sublist face_list := by
  intro face_list
  induction face_list with
  | nil => intro acc; exact List.Sublist.refl []
  | cons e rest ih =>
    intro acc
    simp only [created_entries]
    split_ifs with h
    · exact (ih _).cons e
    · exact (ih _).cons₂ e

theorem octant_assigned_demo_001 : octant_assigned demo_mesh (0, 0, 1) = [(0, 0)] := by
  norm_num [octant_assigned, octant_of, centroid, midpoints, minList, maxList, vertCo,
    face_materials, demo_mesh, List.range_succ, List.filter_cons, List.filter_nil]

theorem bisect_all_in_one :
    bisect_object_octree all_in_one_octant_mesh 1 0 0 0 = [(all_in_one_octant_mesh, 0, 0, 0)] := by
  norm_num +decide [bisect_object_octree, octant_order, octant_assigned, octant_of, centroid,
    midpoints, minList, maxList, vertCo, face_materials, build_chunk, created_entries,
    face_new_fails, dup_verts, same_vert_set, chunk_vert_ids, first_occurrences, remap_index,
    all_in_one_octant_mesh, List.range_succ, List.filter_cons, List.filter_nil,
    List.filterMap_cons, List.filterMap_nil]

/-- C2: each face is assigned to exactly one octant (the flattened assigned
face indices are a permutation of the face index range — no face duplicated,
none dropped); re-creation keeps an order-preserving sublist of each octant's
faces, skipping exactly the per-face failures without aborting, and the
chunk's material list is aligned with the successfully created faces; chunks
are only emitted for octants with faces (and the emitted chunk is never
empty). -/
theorem partition_exactly_once (m : Mesh) (L x y z : ℕ) :
    ((octant_order.map fun o => (octant_assigned m o).map Prod.fst).flatten).Perm
        (List.range m.faces.length) ∧
    (∀ face_list acc, (created_entries m face_list acc).Sublist face_list) ∧
    (∀ (e : ℕ × ℕ) rest acc, created_entries m (e :: rest) acc =
        if face_new_fails acc (m.faces.getD e.1 []) then created_entries m rest acc
        else e :: created_entries m rest (acc ++ [m.faces.getD e.1 []])) ∧
    (∀ face_list, (build_chunk m face_list).face_mats =
        (created_entries m face_list []).map Prod.snd ∧
      (build_chunk m face_list).faces =
        (created_entries m face_list []).map fun e =>
          (m.faces.getD e.1 []).map (remap_index (chunk_vert_ids m face_list))) ∧
    (∀ p ∈ bisect_object_octree m L x y z, p.1.faces ≠ []) ∧
    (∀ o ∈ octant_order, octant_assigned m o = [] →
      ∀ p ∈ bisect_object_octree m L x y z,
        p.2 ≠ (x * 2 + o.1, y * 2 + o.2.1, z * 2 + o.2.2)) := by
  refine ⟨?_, ?_, ?_, ?_, ?_, ?_⟩
  · rw [List.perm_iff_count]
    intro a
    rw [count_range_eq]
    simp only [octant_order, List.map_cons, List.map_nil, List.flatten_cons, List.flatten_nil,
      List.count_append, List.count_nil, octant_assigned_map_fst, count_filter_decide]
    have hk := octant_of_mem_order m (m.faces.getD a [])
    simp only [octant_order, List.mem_cons, List.not_mem_nil, or_false] at hk
    rcases hk with h | h | h | h | h | h | h | h <;> rw [h] <;> simp +decide [count_range_eq]
  · exact created_entries_sublist m
  · intro e rest acc
    rfl
  · intro face_list
    exact ⟨rfl, rfl⟩
  · intro p hp
    rw [mem_bisect_iff] at hp
    obtain ⟨o, ho, -, hfl, -, rfl⟩ := hp
    exact List.ne_nil_of_length_pos hfl
  · intro o ho hempty p hp hcoords
    rw [mem_bisect_iff] at hp
    obtain ⟨o', ho', hne, -, -, rfl⟩ := hp
    obtain ⟨hb1, hb2, hb3⟩ := octant_order_bounds ho
    obtain ⟨hb1', hb2', hb3'⟩ := octant_order_bounds ho'
    have ho_eq : o' = o := by
      simp only [Prod.mk.injEq] at hcoords
      obtain ⟨e1, e2, e3⟩ := hcoords
      have : o'.1 = o.1 := by omega
      have : o'.2.1 = o.2.1 := by omega
      have : o'.2.2 = o.2.2 := by omega
      exact Prod.ext ‹o'.1 = o.1› (Prod.ext ‹o'.2.1 = o.2.1› ‹o'.2.2 = o.2.2›)
    rw [ho_eq, hempty] at hne
    exact hne rfl

/-! ## Theorems: scheduler split behaviour (claim C5) -/

theorem list_eq_map_getD_range (l : List (List ℕ)) :
    (List.range l.length).map (fun i => l.getD i []) = l := by
  apply List.ext_getElem
  · simp
  · intro i h1 h2
    simp only [List.getElem_map, List.getElem_range]
    exact List.getD_eq_getElem l [] h2

theorem sublist_range_map_getD {l : List (List ℕ)} {idx : List ℕ}
    (h : idx.Sublist (List.range l.length)) :
    (idx.map fun i => l.getD i []).Sublist l := by
  have hm := h.map fun i => l.getD i []
  rwa [list_eq_map_getD_range] at hm

/-- C5 corrected: the chunks produced by a split carry re-indexed copies of a
sub-multiset of the parent's faces — a subset that need *not* be strict (see
`split_not_strict_counterexample`) — so the triangle count does not increase
(but need not decrease) across a split, and the recursion is bounded instead
by the level: at `max_level` the scheduler always produces exactly one tile
and never recurses. -/
theorem split_children_subset (m : Mesh) (L x y z : ℕ) :
    (∀ p ∈ bisect_object_octree m L x y z,
      ∃ (origs : List (List ℕ)) (σ : ℕ → ℕ), origs.Sublist m.faces ∧
        p.1.faces = origs.map (List.map σ) ∧
        get_triangle_count p.1 ≤ get_triangle_count m) ∧
    (∀ (dec : Mesh → ℚ → Mesh) (T : ℕ) (obj : TiledObj) maxL, maxL ≤ L →
      (process_object_adaptive dec T obj L x y z maxL).length = 1) := by
  constructor
  · intro p hp
    rw [mem_bisect_iff] at hp
    obtain ⟨o, ho, -, -, -, rfl⟩ := hp
    refine ⟨((created_entries m (octant_assigned m o) []).map Prod.fst).map
        (fun i => m.faces.getD i []),
      remap_index (chunk_vert_ids m (octant_assigned m o)), ?_, ?_, ?_⟩
    · apply sublist_range_map_getD
      have h1 := (created_entries_sublist m (octant_assigned m o) []).map Prod.fst
      rw [octant_assigned_map_fst] at h1
      exact h1.trans (List.filter_sublist _)
    · simp [build_chunk, List.map_map]
    · have hsub : ((build_chunk m (octant_assigned m o)).faces.map fun f => f.length - 2).Sublist
          (m.faces.map fun f => f.length - 2) := by
        have h1 := (created_entries_sublist m (octant_assigned m o) []).map Prod.fst
        rw [octant_assigned_map_fst] at h1
        have h3 := (sublist_range_map_getD (h1.trans (List.filter_sublist _))).map
          fun f : List ℕ => f.length - 2
        simp only [build_chunk, List.map_map]
        simpa [Function.comp_def, List.length_map] using h3
      exact hsub.sum_le_sum fun a _ => Nat.zero_le a
  · intro dec T obj maxL hle
    rw [process_object_adaptive]
    split_ifs with h1
    · rfl
    · rfl

/-- Counterexample to C5 as stated: a fragment over the split threshold
(worker threshold 1) whose faces all fall into one octant.  The split returns
a single child that is the whole parent fragment again — its face set is the
parent's face set, not a strict subset, and its triangle count (2) does not
decrease. -/
theorem split_not_strict_counterexample :
    get_triangle_count all_in_one_octant_mesh = 2 ∧
    1 < get_triangle_count all_in_one_octant_mesh ∧
    (0 : ℕ) < 3 ∧
    bisect_object_octree all_in_one_octant_mesh 1 0 0 0 =
      [(all_in_one_octant_mesh, 0, 0, 0)] ∧
    ¬get_triangle_count all_in_one_octant_mesh < get_triangle_count all_in_one_octant_mesh :=
  ⟨by decide, by decide, by decide, bisect_all_in_one, by decide⟩

/-- Witness for the corrected C5: the one-octant mesh's single chunk is the
mesh itself (subset, equal triangle count), and at `max_level` the scheduler
emits exactly one tile. -/
theorem split_children_subset_witness :
    (∃ (origs : List (List ℕ)) (σ : ℕ → ℕ), origs.Sublist all_in_one_octant_mesh.faces ∧
      all_in_one_octant_mesh.faces = origs.map (List.map σ) ∧
      get_triangle_count all_in_one_octant_mesh ≤ get_triangle_count all_in_one_octant_mesh) ∧
    (process_object_adaptive (fun m _ => m) 1
      ⟨all_in_one_octant_mesh, TileName.tile 3 0 0 0 false⟩ 3 0 0 0 3).length = 1 :=
  ⟨(split_children_subset all_in_one_octant_mesh 1 0 0 0).1
      (all_in_one_octant_mesh, 0, 0, 0) (by rw [bisect_all_in_one]; exact List.mem_singleton.mpr rfl),
   (split_children_subset all_in_one_octant_mesh 3 0 0 0).2 (fun m _ => m) 1
      ⟨all_in_one_octant_mesh, TileName.tile 3 0 0 0 false⟩ 3 le_rfl⟩

/-- Witness for C2: the low octant `(0,0,1)` of the demo mesh receives face 0
and produces a non-empty chunk. -/
theorem partition_exactly_once_witness :
    (build_chunk demo_mesh (octant_assigned demo_mesh (0, 0, 1))).faces ≠ [] :=
  (partition_exactly_once demo_mesh 1 0 0 0).2.2.2.2.1
    (build_chunk demo_mesh (octant_assigned demo_mesh (0, 0, 1)), 0, 0, 1)
    (by
      rw [mem_bisect_iff]
      refine ⟨(0, 0, 1), by decide, ?_, ?_, ?_, rfl⟩ <;> rw [octant_assigned_demo_001] <;> decide)

/-! ## Theorems: adaptive tile scheduler (claim C1) -/

theorem process_exports_inv (dec : Mesh → ℚ → Mesh) (T maxL : ℕ) :
    ∀ n (obj : TiledObj) L x y z, obj.name = TileName.tile L x y z false → L ≤ maxL →
      maxL - L ≤ n →
      ∀ t ∈ process_object_adaptive dec T obj L x y z maxL,
        (∃ l a b c, t.name = TileName.tile l a b c false ∧ l ≤ maxL) ∧
        (t.fromDecimation = false → get_triangle_count t.mesh ≤ T) := by
  intro n
  induction n with
  | zero =>
    intro obj L x y z hname hL hn t ht
    rw [process_object_adaptive] at ht
    split_ifs at ht with h1 h2
    · simp only [List.mem_singleton] at ht
      subst ht
      exact ⟨⟨L, x, y, z, by simp [clean_object_name, hname], hL⟩, fun _ => h1⟩
    · simp only [List.mem_singleton] at ht
      subst ht
      exact ⟨⟨L, x, y, z, by simp [clean_object_name, hname], hL⟩, fun hf => by simp at hf⟩
    · omega
  | succ n ih =>
    intro obj L x y z hname hL hn t ht
    rw [process_object_adaptive] at ht
    split_ifs at ht with h1 h2
    · simp only [List.mem_singleton] at ht
      subst ht
      exact ⟨⟨L, x, y, z, by simp [clean_object_name, hname], hL⟩, fun _ => h1⟩
    · simp only [List.mem_singleton] at ht
      subst ht
      exact ⟨⟨L, x, y, z, by simp [clean_object_name, hname], hL⟩, fun hf => by simp at hf⟩
    · simp only [List.mem_cons] at ht
      rcases ht with rfl | ht
      · exact ⟨⟨L, x, y, z, rfl, hL⟩, fun hf => by simp at hf⟩
      · rw [List.mem_flatMap] at ht
        obtain ⟨c, _, htc⟩ := ht
        exact ih ⟨c.1, TileName.tile (L + 1) c.2.1 c.2.2.1 c.2.2.2 false⟩
          (L + 1) c.2.1 c.2.2.1 c.2.2.2 rfl (by omega) (by omega) t htc

/-- C1: the scheduler's transition rules and their consequences.  At or below
the threshold the fragment is exported unchanged under the tile name of its
visit coordinates; over the threshold at or past `max_level` it is decimated
at ratio `threshold / current_count` and exported; otherwise a decimated copy
of the current fragment is exported as the coarse placeholder for
`{level}_{ix}_{iy}_{iz}` and the original, undecimated fragment is
partitioned, each returned child being recursed into at `level + 1`.
Consequently every exported non-decimated tile has triangle count at most the
threshold, and every exported tile's level is at most `max_level`. -/
theorem adaptive_scheduler_cases (dec : Mesh → ℚ → Mesh) (T : ℕ) (obj : TiledObj)
    (L x y z maxL : ℕ) (hname : obj.name = TileName.tile L x y z false) (hL : L ≤ maxL) :
    (get_triangle_count obj.mesh ≤ T →
      process_object_adaptive dec T obj L x y z maxL =
        [⟨TileName.tile L x y z false, obj.mesh, false⟩]) ∧
    (T < get_triangle_count obj.mesh → maxL ≤ L →
      process_object_adaptive dec T obj L x y z maxL =
        [⟨TileName.tile L x y z false,
          dec obj.mesh ((T : ℚ) / (get_triangle_count obj.mesh : ℚ)), true⟩]) ∧
    (T < get_triangle_count obj.mesh → L < maxL →
      process_object_adaptive dec T obj L x y z maxL =
        ⟨TileName.tile L x y z false,
          dec { obj.mesh with mats := obj.mesh.mats ++ obj.mesh.mats }
            ((T : ℚ) / (get_triangle_count obj.mesh : ℚ)), true⟩ ::
        (bisect_object_octree obj.mesh (L + 1) x y z).flatMap fun c =>
          process_object_adaptive dec T
            ⟨c.1, TileName.tile (L + 1) c.2.1 c.2.2.1 c.2.2.2 false⟩
            (L + 1) c.2.1 c.2.2.1 c.2.2.2 maxL) ∧
    (∀ t ∈ process_object_adaptive dec T obj L x y z maxL,
      (∃ l a b c, t.name = TileName.tile l a b c false ∧ l ≤ maxL) ∧
      (t.fromDecimation = false → get_triangle_count t.mesh ≤ T)) := by
  refine ⟨?_, ?_, ?_, ?_⟩
  · intro h
    rw [process_object_adaptive, if_pos h, hname]
    rfl
  · intro hc hm
    rw [process_object_adaptive, if_neg (by omega : ¬ get_triangle_count obj.mesh ≤ T),
      dif_pos hm, decimate_object, if_neg (by omega : ¬ get_triangle_count obj.mesh ≤ T), hname]
    rfl
  · intro hc hm
    have hcond : ¬ get_triangle_count { obj.mesh with mats := obj.mesh.mats ++ obj.mesh.mats } ≤ T := by
      have heq : get_triangle_count { obj.mesh with mats := obj.mesh.mats ++ obj.mesh.mats } =
          get_triangle_count obj.mesh := rfl
      omega
    rw [process_object_adaptive, if_neg (by omega : ¬ get_triangle_count obj.mesh ≤ T),
      dif_neg (by omega : ¬ maxL ≤ L)]
    show (⟨clean_object_name (duplicate_object obj.mesh (TileName.tile L x y z true)).name,
      decimate_object dec (duplicate_object obj.mesh (TileName.tile L x y z true)).mesh T,
      true⟩ : ExportedTile) :: _ = _
    rw [show (duplicate_object obj.mesh (TileName.tile L x y z true)).mesh =
        { obj.mesh with mats := obj.mesh.mats ++ obj.mesh.mats } from rfl,
      decimate_object, if_neg hcond]
    rfl
  · exact fun t ht =>
      process_exports_inv dec T maxL (maxL - L) obj L x y z hname hL le_rfl t ht

/-- Witness for C1: the demo mesh is under the default threshold `20000`, so
the scheduler leaf-exports it unchanged under `0_0_0_0`. -/
theorem adaptive_scheduler_cases_witness :
    process_object_adaptive (fun m _ => m) 20000
      ⟨demo_mesh, TileName.tile 0 0 0 0 false⟩ 0 0 0 0 3 =
      [⟨TileName.tile 0 0 0 0 false, demo_mesh, false⟩] :=
  (adaptive_scheduler_cases (fun m _ => m) 20000 ⟨demo_mesh, TileName.tile 0 0 0 0 false⟩
    0 0 0 0 3 rfl (by norm_num)).1 (by decide)

end Mesh2Tile
